import Mathlib

/-!
# Verification of the onboard-switches network discovery engine

A shallow embedding of `src/topologyDiscovery/StartDiscovery.py`
(`NetworkDiscoveryManager`) and of the Hirschmann VLAN filter
`src/ansible_collections/openrail/switchos/plugins/filter/hirschmann/vlan.py`,
together with theorems about the crawl algorithm, its failure isolation,
its termination, and the summary statistics.

Addresses are modelled as `String` (IP addresses), machine `set`s as
`Finset String`, Python `dict`s as association lists, and exceptions as
`Except String`.  The probe (`SwitchDetector.detect_switch_type`), the
vendor registry (`self.discovery_classes`) and the per-vendor discovery
strategies (`get_switch_info`) are external collaborators; a run of the
engine is parametrised by an `Env` describing their (deterministic)
behaviour, and by a `pick` function modelling Python's arbitrary
`set.pop()`.
-/

namespace OnboardSwitches

/-- Modelled from the spec: `Credentials` — a transient username/password
pair resolved by the external credential source (`data_model` is not part
of the sources; §3 of the spec). -/
structure Credentials where
  username : String
  password : String
deriving DecidableEq

/-- Modelled from the spec: `NeighborInfo` (NeighborEdge) — a neighbor
address plus descriptive link metadata (§3; the engine only reads `.ip`). -/
structure NeighborInfo where
  ip : String
  port : String
deriving DecidableEq

/-- Modelled from the spec: `SwitchInfo` (DeviceRecord) — address,
vendor/type tag, ordered neighbor list (§3; identity attributes beyond the
type tag are not read by the engine and are omitted). -/
structure SwitchInfo where
  ip : String
  type : Option String
  neighbors : List NeighborInfo
deriving DecidableEq

/-- Modelled from the spec: `NetworkTopology` — a mapping from address to
`SwitchInfo` (keys unique) plus a single `discovery_timestamp` (§3).  The
Python dict is modelled as an ordered association list; the timestamp as
an opaque `Option Nat` token. -/
structure NetworkTopology where
  switches : List (String × SwitchInfo)
  discovery_timestamp : Option Nat
deriving DecidableEq

/-- Insert-or-replace into an ordered association list (Python dict
assignment semantics: update in place if the key exists, append at the
end otherwise). -/
def insertEntry (info : SwitchInfo) : List (String × SwitchInfo) → List (String × SwitchInfo)
  | [] => [(info.ip, info)]
  | (k, v) :: rest => if k = info.ip then (k, info) :: rest else (k, v) :: insertEntry info rest

/-- Lookup in an ordered association list (Python dict access). -/
def lookupEntry : List (String × SwitchInfo) → String → Option SwitchInfo
  | [], _ => none
  | (k, v) :: rest, a => if k = a then some v else lookupEntry rest a

/-- Modelled from the spec: `NetworkTopology.add_switch` — insert-or-replace
a DeviceRecord keyed by the record's own address (§4.4 "insert-or-replace a
DeviceRecord by address", §3 invariant "for every (k, v) pair, k equals v's
address"). -/
def add_switch (info : SwitchInfo) (t : NetworkTopology) : NetworkTopology :=
  { t with switches := insertEntry info t.switches }

/-- Modelled from the spec: `NetworkTopology.get_switch` — lookup a
DeviceRecord by address, absent if not discovered (§4.4). -/
def get_switch (t : NetworkTopology) (ip : String) : Option SwitchInfo :=
  lookupEntry t.switches ip

instance {ε α : Type} [DecidableEq ε] [DecidableEq α] : DecidableEq (Except ε α) := fun x y =>
  match x, y with
  | .error a, .error b =>
    if h : a = b then isTrue (by rw [h]) else isFalse (by intro hh; cases hh; exact h rfl)
  | .ok a, .ok b =>
    if h : a = b then isTrue (by rw [h]) else isFalse (by intro hh; cases hh; exact h rfl)
  | .error _, .ok _ => isFalse (fun hh => Except.noConfusion hh)
  | .ok _, .error _ => isFalse (fun hh => Except.noConfusion hh)

/-- Result of `SwitchDetector.detect_switch_type` when it does not raise:
a vendor tag or `None`, and credentials or `None` (the `ssh_client`
component is only disconnected and is not modelled). -/
structure ProbeResult where
  vendor : Option String
  credentials : Option Credentials
deriving DecidableEq

/-- The deterministic environment a crawl runs against: the probe
(`detect_switch_type`, which may raise — `Except.error`), the vendor
registry (`self.discovery_classes.get`, `none` for an unregistered tag),
and the per-address strategy result (`get_switch_info`, which may raise). -/
structure Env where
  probe : String → Except String ProbeResult
  registered : String → Bool
  discover : String → Except String SwitchInfo

/-- The vendor registry built in `NetworkDiscoveryManager.__init__`
(lines 47-52): hirschmann, lantech, kontron, nomad. -/
def defaultRegistry (v : String) : Bool :=
  v = "hirschmann" ∨ v = "lantech" ∨ v = "kontron" ∨ v = "nomad"

/-- Engine state persisted on `self` across calls to `discover_network`:
`self.discovered_switches`, `self.failed_switches`, `self.topology`
(lines 42-44; none of these is reset by `discover_network`). -/
structure EngineState where
  discovered : Finset String
  failed : Finset String
  topology : NetworkTopology
deriving DecidableEq

/-- `NetworkDiscoveryManager.__init__` (lines 40-52): fresh empty sets and
a fresh topology. -/
def initEngine : EngineState :=
  { discovered := ∅, failed := ∅, topology := { switches := [], discovery_timestamp := none } }

/-- Full state while `_discover_switches_iterative` runs: the three
persisted engine fields plus the run-local `seen_switches` and
`candidate_switches` sets and the loop counter.  `trace` records the
sequence of popped addresses (the line-86 debug log), instrumenting visit
order for the no-revisit theorems. -/
structure LoopState where
  candidate : Finset String
  seen : Finset String
  discovered : Finset String
  failed : Finset String
  topology : NetworkTopology
  trace : List String
  counter : Nat
deriving DecidableEq

/-- Lines 112-115: append every neighbor address not already in
`seen_switches` to the candidate set. -/
def enqueue (seenS : Finset String) (nbrs : List NeighborInfo) (cand : Finset String) : Finset String :=
  nbrs.foldl (fun c n => if n.ip ∈ seenS then c else insert n.ip c) cand

/-- Lines 87-118: the body of one visit of address `a`, after `a` has been
popped and added to `seen`.  Any exception from the probe is caught by the
line-116 handler and recorded as a failure; missing credentials and/or a
missing vendor each add `a` to the failed set (lines 92-100 — inserting
the same element twice equals inserting it once) and skip discovery; an
unregistered vendor makes `discovery_classes.get` return `None`, so the
call on line 104 raises `TypeError`, which the line-116 handler also
catches and records as a failure; a strategy exception is likewise caught;
on success the record is stored (keyed by its own address, line 110),
`switch_info.ip` is added to the discovered set (line 111), and unseen
neighbors are enqueued. -/
def processNode (env : Env) (a : String) (st : LoopState) : LoopState :=
  match env.probe a with
  | .error _ => { st with failed := insert a st.failed }
  | .ok pr =>
    match pr.vendor, pr.credentials with
    | some v, some _ =>
      if env.registered v then
        match env.discover a with
        | .ok info =>
          { st with
            topology := add_switch info st.topology
            discovered := insert info.ip st.discovered
            candidate := enqueue st.seen info.neighbors st.candidate }
        | .error _ => { st with failed := insert a st.failed }
      else { st with failed := insert a st.failed }
    | _, _ => { st with failed := insert a st.failed }

/-- One iteration of the `while candidate_switches:` loop (lines 82-120):
pop an arbitrary element (modelled by `pick` plus `erase`), add it to
`seen_switches` and the visit trace, process it, bump the counter. -/
def crawlStep (env : Env) (pick : Finset String → String) (st : LoopState) : LoopState :=
  let a := pick st.candidate
  let st1 := { st with
    candidate := st.candidate.erase a
    seen := insert a st.seen
    trace := st.trace ++ [a] }
  let st2 := processNode env a st1
  { st2 with counter := st2.counter + 1 }

/-- The `while` loop itself, fuel-indexed: iterate `crawlStep` while the
candidate set is non-empty. -/
def crawlLoop (env : Env) (pick : Finset String → String) : Nat → LoopState → LoopState
  | 0, st => st
  | fuel + 1, st =>
    if st.candidate = ∅ then st else crawlLoop env pick fuel (crawlStep env pick st)

/-- Lines 76-79 of `_discover_switches_iterative`: fresh run-local
`seen_switches` and `candidate_switches := {seed}`, while the persisted
engine fields carry over unchanged from `self`. -/
def initLoopState (es : EngineState) (seed : String) : LoopState :=
  { candidate := {seed}
    seen := ∅
    discovered := es.discovered
    failed := es.failed
    topology := es.topology
    trace := []
    counter := 0 }

/-- Line 65 of `discover_network`: set `self.topology.discovery_timestamp`
to the current time at crawl start. -/
def withTimestamp (es : EngineState) (now : Nat) : EngineState :=
  { es with topology := { es.topology with discovery_timestamp := some now } }

/-- `discover_network` (lines 54-73): stamp the topology, run the
iterative crawl from the seed, return the final state (the caller reads
`self.topology` from it). -/
def discover_network (env : Env) (pick : Finset String → String) (fuel : Nat) (now : Nat)
    (es : EngineState) (seed : String) : LoopState :=
  crawlLoop env pick fuel (initLoopState (withTimestamp es now) seed)

/-- The engine fields persisted on `self` after a run. -/
def engineOf (st : LoopState) : EngineState :=
  { discovered := st.discovered, failed := st.failed, topology := st.topology }

/-- The line-193 expression `switch.type or 'unknown'`: a missing or empty
type tag is grouped under the `unknown` bucket. -/
def typeKey (info : SwitchInfo) : String :=
  match info.type with
  | none => "unknown"
  | some t => if t = "" then "unknown" else t

/-- Line 194, `d[t] = d.get(t, 0) + 1` on an ordered dict: bump the count
of key `t`, appending it with count 1 if absent. -/
def bump : List (String × Nat) → String → List (String × Nat)
  | [], t => [(t, 1)]
  | (k, v) :: rest, t => if k = t then (k, v + 1) :: rest else (k, v) :: bump rest t

/-- Count stored under a key of the histogram dict (0 if absent). -/
def histCount : List (String × Nat) → String → Nat
  | [], _ => 0
  | (k, v) :: rest, t => if k = t then v else histCount rest t

/-- The statistics dict built by `get_topology_stats`. -/
structure TopologyStats where
  total_switches : Nat
  switch_types : List (String × Nat)
  total_neighbors : Nat
  discovery_timestamp : Option Nat
  discovered_ips : Finset String
  failed_ips : Finset String
deriving DecidableEq

/-- `get_topology_stats` (lines 175-197): seed the dict with the entry
count, timestamp and the two address sets, then fold over the stored
records accumulating the type histogram and the total neighbor count. -/
def get_topology_stats (es : EngineState) : TopologyStats :=
  es.topology.switches.foldl
    (fun s e =>
      { s with
        switch_types := bump s.switch_types (typeKey e.2)
        total_neighbors := s.total_neighbors + e.2.neighbors.length })
    { total_switches := es.topology.switches.length
      switch_types := []
      total_neighbors := 0
      discovery_timestamp := es.topology.discovery_timestamp
      discovered_ips := es.discovered
      failed_ips := es.failed }

/-- A `pick` function is a valid model of `set.pop()` when it returns an
element of every non-empty set. -/
def ValidPick (pick : Finset String → String) : Prop :=
  ∀ s : Finset String, s.Nonempty → pick s ∈ s

/-- Lexicographic comparison of character lists, written with plain
recursion and `Nat` comparisons so the kernel can evaluate it on
concrete addresses. -/
def charListLe : List Char → List Char → Bool
  | [], _ => true
  | _ :: _, [] => false
  | a :: as, b :: bs =>
    if a.toNat < b.toNat then true
    else if b.toNat < a.toNat then false
    else charListLe as bs

/-- The corresponding order on addresses. -/
def sLe (a b : String) : Prop := charListLe a.data b.data = true

/-- The smaller of two addresses. -/
def strMin (a b : String) : String := if charListLe a.data b.data then a else b

/-- The larger of two addresses. -/
def strMax (a b : String) : String := if charListLe a.data b.data then b else a

theorem char_eq_of_toNat_eq (a b : Char) (h : a.toNat = b.toNat) : a = b :=
  Char.eq_of_val_eq (UInt32.toNat.inj h)

theorem charListLe_refl : ∀ l, charListLe l l = true := by
  intro l
  induction l with
  | nil => rfl
  | cons a as ih => simp [charListLe, Nat.lt_irrefl, ih]

theorem charListLe_total : ∀ l1 l2, charListLe l1 l2 = true ∨ charListLe l2 l1 = true := by
  intro l1
  induction l1 with
  | nil => intro l2; exact Or.inl rfl
  | cons a as ih =>
    intro l2
    cases l2 with
    | nil => exact Or.inr rfl
    | cons b bs =>
      by_cases hab : a.toNat < b.toNat
      · left
        simp [charListLe, hab]
      · by_cases hba : b.toNat < a.toNat
        · right
          simp [charListLe, hba]
        · rcases ih bs with h | h
          · left
            simp [charListLe, hab, hba, h]
          · right
            simp [charListLe, hab, hba, h]

theorem charListLe_antisymm :
    ∀ l1 l2, charListLe l1 l2 = true → charListLe l2 l1 = true → l1 = l2 := by
  intro l1
  induction l1 with
  | nil =>
    intro l2 h1 h2
    cases l2 with
    | nil => rfl
    | cons b bs => exact absurd h2 (by simp [charListLe])
  | cons a as ih =>
    intro l2 h1 h2
    cases l2 with
    | nil => exact absurd h1 (by simp [charListLe])
    | cons b bs =>
      by_cases hab : a.toNat < b.toNat
      · have hba : ¬ b.toNat < a.toNat := by omega
        simp [charListLe, hab, hba] at h2
      · by_cases hba : b.toNat < a.toNat
        · simp [charListLe, hab, hba] at h1
        · have hc : a = b := char_eq_of_toNat_eq a b (by omega)
          simp [charListLe, hab, hba] at h1 h2
          rw [hc, ih bs h1 h2]

theorem charListLe_trans :
    ∀ l1 l2 l3, charListLe l1 l2 = true → charListLe l2 l3 = true →
      charListLe l1 l3 = true := by
  intro l1
  induction l1 with
  | nil => intro l2 l3 _ _; rfl
  | cons a as ih =>
    intro l2 l3 h1 h2
    cases l2 with
    | nil => exact absurd h1 (by simp [charListLe])
    | cons b bs =>
      cases l3 with
      | nil => exact absurd h2 (by simp [charListLe])
      | cons c cs =>
        by_cases hba : b.toNat < a.toNat
        · simp [charListLe, hba] at h1
          omega
        · by_cases hcb : c.toNat < b.toNat
          · simp [charListLe, hcb] at h2
            omega
          · by_cases hab : a.toNat < b.toNat
            · have : a.toNat < c.toNat := by omega
              simp [charListLe, this]
            · by_cases hbc : b.toNat < c.toNat
              · have : a.toNat < c.toNat := by omega
                simp [charListLe, this]
              · have hac : ¬ a.toNat < c.toNat := by omega
                have hca : ¬ c.toNat < a.toNat := by omega
                simp [charListLe, hab, hba] at h1
                simp [charListLe, hbc, hcb] at h2
                simp [charListLe, hac, hca]
                exact ih bs cs h1 h2

theorem sLe_refl (a : String) : sLe a a := charListLe_refl a.data

theorem sLe_total (a b : String) : sLe a b ∨ sLe b a := charListLe_total a.data b.data

theorem sLe_antisymm (a b : String) (h1 : sLe a b) (h2 : sLe b a) : a = b := by
  have h := charListLe_antisymm a.data b.data h1 h2
  cases a
  cases b
  exact congrArg String.mk h

theorem sLe_trans (a b c : String) (h1 : sLe a b) (h2 : sLe b c) : sLe a c :=
  charListLe_trans a.data b.data c.data h1 h2

theorem strMin_choice (a b : String) : strMin a b = a ∨ strMin a b = b := by
  unfold strMin
  by_cases h : charListLe a.data b.data
  · rw [if_pos h]
    exact Or.inl rfl
  · rw [if_neg h]
    exact Or.inr rfl

theorem strMax_choice (a b : String) : strMax a b = a ∨ strMax a b = b := by
  unfold strMax
  by_cases h : charListLe a.data b.data
  · rw [if_pos h]
    exact Or.inr rfl
  · rw [if_neg h]
    exact Or.inl rfl

theorem sLe_of_not_le (a b : String) (h : ¬ charListLe a.data b.data = true) : sLe b a := by
  rcases charListLe_total a.data b.data with h2 | h2
  · exact absurd h2 h
  · exact h2

theorem strMin_le_left (a b : String) : sLe (strMin a b) a := by
  unfold strMin
  by_cases h : charListLe a.data b.data
  · rw [if_pos h]
    exact sLe_refl a
  · rw [if_neg h]
    exact sLe_of_not_le a b h

theorem strMin_le_right (a b : String) : sLe (strMin a b) b := by
  unfold strMin
  by_cases h : charListLe a.data b.data
  · rw [if_pos h]
    exact h
  · rw [if_neg h]
    exact sLe_refl b

theorem strMax_ge_left (a b : String) : sLe a (strMax a b) := by
  unfold strMax
  by_cases h : charListLe a.data b.data
  · rw [if_pos h]
    exact h
  · rw [if_neg h]
    exact sLe_refl a

theorem strMax_ge_right (a b : String) : sLe b (strMax a b) := by
  unfold strMax
  by_cases h : charListLe a.data b.data
  · rw [if_pos h]
    exact sLe_refl b
  · rw [if_neg h]
    exact sLe_of_not_le a b h

/-- Least element of a list of addresses (empty string on the empty
list); written with `foldl` over `strMin` so the kernel can evaluate it
on concrete sets. -/
def listMin : List String → String
  | [] => ""
  | a :: rest => rest.foldl strMin a

/-- Greatest element of a list of addresses (empty string on the empty
list). -/
def listMax : List String → String
  | [] => ""
  | a :: rest => rest.foldl strMax a

theorem foldl_min_mem (rest : List String) : ∀ a : String, rest.foldl strMin a ∈ a :: rest := by
  induction rest with
  | nil => intro a; simp
  | cons b rest ih =>
    intro a
    rw [List.foldl_cons]
    rcases List.mem_cons.mp (ih (strMin a b)) with hm | hm
    · rw [hm]
      rcases strMin_choice a b with hc | hc
      · rw [hc]
        exact List.mem_cons_self _ _
      · rw [hc]
        exact List.mem_cons_of_mem _ (List.mem_cons_self _ _)
    · exact List.mem_cons_of_mem _ (List.mem_cons_of_mem _ hm)

theorem foldl_min_le (rest : List String) :
    ∀ a x : String, x ∈ a :: rest → sLe (rest.foldl strMin a) x := by
  induction rest with
  | nil =>
    intro a x hx
    rw [List.mem_singleton] at hx
    rw [hx]
    exact sLe_refl _
  | cons b rest ih =>
    intro a x hx
    rw [List.foldl_cons]
    rcases List.mem_cons.mp hx with hxa | hx2
    · rw [hxa]
      exact sLe_trans _ _ _ (ih (strMin a b) (strMin a b) (List.mem_cons_self _ _))
        (strMin_le_left a b)
    · rcases List.mem_cons.mp hx2 with hxb | hx3
      · rw [hxb]
        exact sLe_trans _ _ _ (ih (strMin a b) (strMin a b) (List.mem_cons_self _ _))
          (strMin_le_right a b)
      · exact ih (strMin a b) x (List.mem_cons_of_mem _ hx3)

theorem foldl_max_mem (rest : List String) : ∀ a : String, rest.foldl strMax a ∈ a :: rest := by
  induction rest with
  | nil => intro a; simp
  | cons b rest ih =>
    intro a
    rw [List.foldl_cons]
    rcases List.mem_cons.mp (ih (strMax a b)) with hm | hm
    · rw [hm]
      rcases strMax_choice a b with hc | hc
      · rw [hc]
        exact List.mem_cons_self _ _
      · rw [hc]
        exact List.mem_cons_of_mem _ (List.mem_cons_self _ _)
    · exact List.mem_cons_of_mem _ (List.mem_cons_of_mem _ hm)

theorem foldl_max_ge (rest : List String) :
    ∀ a x : String, x ∈ a :: rest → sLe x (rest.foldl strMax a) := by
  induction rest with
  | nil =>
    intro a x hx
    rw [List.mem_singleton] at hx
    rw [hx]
    exact sLe_refl _
  | cons b rest ih =>
    intro a x hx
    rw [List.foldl_cons]
    rcases List.mem_cons.mp hx with hxa | hx2
    · rw [hxa]
      exact sLe_trans _ _ _ (strMax_ge_left a b)
        (ih (strMax a b) (strMax a b) (List.mem_cons_self _ _))
    · rcases List.mem_cons.mp hx2 with hxb | hx3
      · rw [hxb]
        exact sLe_trans _ _ _ (strMax_ge_right a b)
          (ih (strMax a b) (strMax a b) (List.mem_cons_self _ _))
      · exact ih (strMax a b) x (List.mem_cons_of_mem _ hx3)

theorem listMin_perm (l1 l2 : List String) (h : l1.Perm l2) : listMin l1 = listMin l2 := by
  cases l1 with
  | nil =>
    rw [List.Perm.eq_nil h.symm]
  | cons a r1 =>
    cases l2 with
    | nil =>
      have := h.length_eq
      simp at this
    | cons b r2 =>
      exact sLe_antisymm _ _
        (foldl_min_le r1 a _ (h.mem_iff.mpr (foldl_min_mem r2 b)))
        (foldl_min_le r2 b _ (h.symm.mem_iff.mpr (foldl_min_mem r1 a)))

theorem listMax_perm (l1 l2 : List String) (h : l1.Perm l2) : listMax l1 = listMax l2 := by
  cases l1 with
  | nil =>
    rw [List.Perm.eq_nil h.symm]
  | cons a r1 =>
    cases l2 with
    | nil =>
      have := h.length_eq
      simp at this
    | cons b r2 =>
      exact sLe_antisymm _ _
        (foldl_max_ge r2 b _ (h.symm.mem_iff.mpr (foldl_max_mem r1 a)))
        (foldl_max_ge r1 a _ (h.mem_iff.mpr (foldl_max_mem r2 b)))

/-- A concrete valid pick: the least address of the set. -/
def pickMin (s : Finset String) : String :=
  Quotient.liftOn s.1 listMin listMin_perm

/-- A concrete valid pick drawing from the other end of the order. -/
def pickMax (s : Finset String) : String :=
  Quotient.liftOn s.1 listMax listMax_perm

theorem pickMin_mem_of_ne_zero :
    ∀ m : Multiset String, m ≠ 0 → Quotient.liftOn m listMin listMin_perm ∈ m := by
  intro m
  induction m using Quotient.inductionOn with
  | h l =>
    intro hne
    cases l with
    | nil => exact absurd rfl hne
    | cons a rest => exact Multiset.mem_coe.mpr (foldl_min_mem rest a)

theorem pickMax_mem_of_ne_zero :
    ∀ m : Multiset String, m ≠ 0 → Quotient.liftOn m listMax listMax_perm ∈ m := by
  intro m
  induction m using Quotient.inductionOn with
  | h l =>
    intro hne
    cases l with
    | nil => exact absurd rfl hne
    | cons a rest => exact Multiset.mem_coe.mpr (foldl_max_mem rest a)

theorem validPick_pickMin : ValidPick pickMin := by
  intro s hs
  exact Finset.mem_def.mpr (pickMin_mem_of_ne_zero s.1
    (fun hz => Finset.nonempty_iff_ne_empty.mp hs (Finset.val_eq_zero.mp hz)))

theorem validPick_pickMax : ValidPick pickMax := by
  intro s hs
  exact Finset.mem_def.mpr (pickMax_mem_of_ne_zero s.1
    (fun hz => Finset.nonempty_iff_ne_empty.mp hs (Finset.val_eq_zero.mp hz)))

/-! ## Characterisation of one node visit -/

/-- The outcome of visiting address `a` as a value: `some info` exactly
when the probe returns a vendor and credentials, the vendor is registered,
and the strategy returns `info`; `none` on every failure path. -/
def nodeResult (env : Env) (a : String) : Option SwitchInfo :=
  match env.probe a with
  | .error _ => none
  | .ok pr =>
    match pr.vendor, pr.credentials with
    | some v, some _ => if env.registered v then (env.discover a).toOption else none
    | _, _ => none

/-- Addresses reported as neighbors by a successful visit of `a`. -/
def nbrIps (env : Env) (a : String) : List String :=
  match nodeResult env a with
  | some info => info.neighbors.map (·.ip)
  | none => []

theorem processNode_eq (env : Env) (a : String) (st : LoopState) :
    processNode env a st =
      match nodeResult env a with
      | none => { st with failed := insert a st.failed }
      | some info =>
        { st with
          topology := add_switch info st.topology
          discovered := insert info.ip st.discovered
          candidate := enqueue st.seen info.neighbors st.candidate } := by
  unfold processNode nodeResult
  cases env.probe a with
  | error e => rfl
  | ok pr =>
    obtain ⟨vendor, creds⟩ := pr
    cases vendor with
    | none => cases creds <;> rfl
    | some v =>
      cases creds with
      | none => rfl
      | some c =>
        cases hr : env.registered v
        · simp only [hr]; rfl
        · simp only [hr]
          cases env.discover a <;> rfl

theorem mem_enqueue (seenS : Finset String) (nbrs : List NeighborInfo)
    (cand : Finset String) (x : String) :
    x ∈ enqueue seenS nbrs cand ↔
      x ∈ cand ∨ (x ∉ seenS ∧ ∃ n ∈ nbrs, n.ip = x) := by
  induction nbrs generalizing cand with
  | nil => simp [enqueue]
  | cons n rest ih =>
    unfold enqueue
    simp only [List.foldl_cons]
    by_cases hn : n.ip ∈ seenS
    · rw [if_pos hn]
      rw [show (List.foldl (fun c m => if m.ip ∈ seenS then c else insert m.ip c) cand rest)
            = enqueue seenS rest cand from rfl, ih]
      constructor
      · rintro (h | ⟨hx, m, hm, hmx⟩)
        · exact Or.inl h
        · exact Or.inr ⟨hx, m, List.mem_cons_of_mem _ hm, hmx⟩
      · rintro (h | ⟨hx, m, hm, hmx⟩)
        · exact Or.inl h
        · rcases List.mem_cons.mp hm with rfl | hm
          · exact absurd (hmx ▸ hn) hx
          · exact Or.inr ⟨hx, m, hm, hmx⟩
    · rw [if_neg hn]
      rw [show (List.foldl (fun c m => if m.ip ∈ seenS then c else insert m.ip c)
            (insert n.ip cand) rest) = enqueue seenS rest (insert n.ip cand) from rfl, ih]
      simp only [Finset.mem_insert]
      constructor
      · rintro ((rfl | h) | ⟨hx, m, hm, hmx⟩)
        · exact Or.inr ⟨hn, n, List.mem_cons_self _ _, rfl⟩
        · exact Or.inl h
        · exact Or.inr ⟨hx, m, List.mem_cons_of_mem _ hm, hmx⟩
      · rintro (h | ⟨hx, m, hm, hmx⟩)
        · exact Or.inl (Or.inr h)
        · rcases List.mem_cons.mp hm with rfl | hm
          · exact Or.inl (Or.inl hmx.symm)
          · exact Or.inr ⟨hx, m, hm, hmx⟩

theorem crawlStep_failure (env : Env) (pick : Finset String → String) (st : LoopState)
    (h : nodeResult env (pick st.candidate) = none) :
    crawlStep env pick st =
      { st with
        candidate := st.candidate.erase (pick st.candidate)
        seen := insert (pick st.candidate) st.seen
        failed := insert (pick st.candidate) st.failed
        trace := st.trace ++ [pick st.candidate]
        counter := st.counter + 1 } := by
  simp only [crawlStep, processNode_eq, h]

theorem crawlStep_success (env : Env) (pick : Finset String → String) (st : LoopState)
    (info : SwitchInfo) (h : nodeResult env (pick st.candidate) = some info) :
    crawlStep env pick st =
      { st with
        candidate := enqueue (insert (pick st.candidate) st.seen) info.neighbors
          (st.candidate.erase (pick st.candidate))
        seen := insert (pick st.candidate) st.seen
        topology := add_switch info st.topology
        discovered := insert info.ip st.discovered
        trace := st.trace ++ [pick st.candidate]
        counter := st.counter + 1 } := by
  simp only [crawlStep, processNode_eq, h]

/-- Every predicate preserved by one step is preserved by the whole loop. -/
theorem crawlLoop_inv (env : Env) (pick : Finset String → String)
    (P : LoopState → Prop)
    (hstep : ∀ st, st.candidate ≠ ∅ → P st → P (crawlStep env pick st)) :
    ∀ fuel st, P st → P (crawlLoop env pick fuel st) := by
  intro fuel
  induction fuel with
  | zero => intro st h; exact h
  | succ n ih =>
    intro st h
    unfold crawlLoop
    by_cases hc : st.candidate = ∅
    · rw [if_pos hc]; exact h
    · rw [if_neg hc]; exact ih _ (hstep st hc h)

theorem crawlLoop_of_empty (env : Env) (pick : Finset String → String)
    (fuel : Nat) (st : LoopState) (h : st.candidate = ∅) :
    crawlLoop env pick fuel st = st := by
  cases fuel with
  | zero => rfl
  | succ n => unfold crawlLoop; rw [if_pos h]

theorem crawlStep_seen (env : Env) (pick : Finset String → String) (st : LoopState) :
    (crawlStep env pick st).seen = insert (pick st.candidate) st.seen := by
  cases hnr : nodeResult env (pick st.candidate) with
  | none => rw [crawlStep_failure env pick st hnr]
  | some info => rw [crawlStep_success env pick st info hnr]

theorem crawlStep_trace (env : Env) (pick : Finset String → String) (st : LoopState) :
    (crawlStep env pick st).trace = st.trace ++ [pick st.candidate] := by
  cases hnr : nodeResult env (pick st.candidate) with
  | none => rw [crawlStep_failure env pick st hnr]
  | some info => rw [crawlStep_success env pick st info hnr]

theorem crawlStep_disjoint (env : Env) (pick : Finset String → String) (st : LoopState)
    (h : Disjoint st.candidate st.seen) :
    Disjoint (crawlStep env pick st).candidate (crawlStep env pick st).seen := by
  have base : ∀ x, x ∈ st.candidate.erase (pick st.candidate) →
      x ∉ insert (pick st.candidate) st.seen := by
    intro x hx hxs
    rcases Finset.mem_insert.mp hxs with rfl | hxs
    · exact (Finset.mem_erase.mp hx).1 rfl
    · exact Finset.disjoint_left.mp h (Finset.mem_erase.mp hx).2 hxs
  cases hnr : nodeResult env (pick st.candidate) with
  | none =>
    rw [crawlStep_failure env pick st hnr]
    exact Finset.disjoint_left.mpr base
  | some info =>
    rw [crawlStep_success env pick st info hnr]
    rw [Finset.disjoint_left]
    intro x hx hxs
    rcases (mem_enqueue _ _ _ x).mp hx with hx | ⟨hxnot, _, _, _⟩
    · exact base x hx hxs
    · exact hxnot hxs

/-! ## Association-list lemmas -/

theorem lookup_insertEntry (info : SwitchInfo) (l : List (String × SwitchInfo)) (x : String) :
    lookupEntry (insertEntry info l) x =
      if x = info.ip then some info else lookupEntry l x := by
  induction l with
  | nil =>
    simp only [insertEntry, lookupEntry]
    by_cases hx : info.ip = x
    · rw [if_pos hx, if_pos hx.symm]
    · rw [if_neg hx, if_neg (fun h => hx h.symm)]
  | cons p rest ih =>
    obtain ⟨k, v⟩ := p
    simp only [insertEntry]
    by_cases hk : k = info.ip
    · rw [if_pos hk]
      simp only [lookupEntry]
      by_cases hx : k = x
      · rw [if_pos hx, if_pos (hx ▸ hk)]
      · rw [if_neg hx, if_neg (fun h : x = info.ip => hx (hk.trans h.symm)), if_neg hx]
    · rw [if_neg hk]
      simp only [lookupEntry]
      by_cases hx : k = x
      · rw [if_pos hx, if_neg (fun h : x = info.ip => hk (hx.trans h)), if_pos hx]
      · rw [if_neg hx, ih]
        by_cases hxi : x = info.ip
        · rw [if_pos hxi, if_pos hxi]
        · rw [if_neg hxi, if_neg hxi, if_neg hx]

theorem mem_keys_insertEntry (info : SwitchInfo) (l : List (String × SwitchInfo)) (x : String) :
    x ∈ (insertEntry info l).map Prod.fst ↔ x = info.ip ∨ x ∈ l.map Prod.fst := by
  induction l with
  | nil => simp [insertEntry]
  | cons p rest ih =>
    obtain ⟨k, v⟩ := p
    by_cases hk : k = info.ip
    · subst hk
      simp only [insertEntry, List.map_cons, List.mem_cons, eq_self_iff_true, if_true]
      tauto
    · simp only [insertEntry, if_neg hk, List.map_cons, List.mem_cons, ih]
      tauto

theorem keys_nodup_insertEntry (info : SwitchInfo) (l : List (String × SwitchInfo))
    (h : (l.map Prod.fst).Nodup) : ((insertEntry info l).map Prod.fst).Nodup := by
  induction l with
  | nil => simp [insertEntry]
  | cons p rest ih =>
    obtain ⟨k, v⟩ := p
    simp only [List.map_cons, List.nodup_cons] at h
    by_cases hk : k = info.ip
    · subst hk
      simpa [insertEntry] using h
    · simp only [insertEntry, if_neg hk, List.map_cons, List.nodup_cons]
      refine ⟨fun hmem => ?_, ih h.2⟩
      rcases (mem_keys_insertEntry info rest k).mp hmem with rfl | hmem
      · exact hk rfl
      · exact h.1 hmem

theorem lookup_of_mem_nodup (l : List (String × SwitchInfo)) (k : String) (v : SwitchInfo)
    (hnd : (l.map Prod.fst).Nodup) (hmem : (k, v) ∈ l) : lookupEntry l k = some v := by
  induction l with
  | nil => cases hmem
  | cons p rest ih =>
    obtain ⟨k', v'⟩ := p
    simp only [List.map_cons, List.nodup_cons] at hnd
    rcases List.mem_cons.mp hmem with heq | hmem
    · cases heq
      simp [lookupEntry]
    · have hne : k' ≠ k := by
        rintro rfl
        exact hnd.1 (List.mem_map.mpr ⟨(k', v), hmem, rfl⟩)
      simp [lookupEntry, hne, ih hnd.2 hmem]

/-! ## The master crawl invariant -/

/-- Every record a strategy returns reports the probed address as its own
address (the topology invariant "k equals v's address" assumed of the
collaborators by the spec). -/
def WellAddressed (env : Env) : Prop :=
  ∀ a info, env.discover a = Except.ok info → info.ip = a

theorem nodeResult_discover (env : Env) (a : String) (info : SwitchInfo)
    (h : nodeResult env a = some info) : env.discover a = Except.ok info := by
  unfold nodeResult at h
  split at h
  · exact absurd h (by simp)
  · split at h
    · split at h
      · cases hd : env.discover a with
        | error e => rw [hd] at h; exact absurd h (by simp [Except.toOption])
        | ok i =>
          rw [hd] at h
          simp only [Except.toOption, Option.some.injEq] at h
          rw [h]
      · exact absurd h (by simp)
    · exact absurd h (by simp)

theorem nodeResult_ip (env : Env) (a : String) (info : SwitchInfo)
    (hWA : WellAddressed env) (h : nodeResult env a = some info) : info.ip = a :=
  hWA a info (nodeResult_discover env a info h)

/-- The crawl invariant (relative to a run started from a fresh engine):
candidate and seen are disjoint; the discovered and failed sets partition
the seen set by per-node success; the topology holds exactly the records
of the successfully visited addresses, keyed without duplicates. -/
structure MasterInv (env : Env) (st : LoopState) : Prop where
  disj : Disjoint st.candidate st.seen
  disc_eq : st.discovered = st.seen.filter (fun x => (nodeResult env x).isSome = true)
  fail_eq : st.failed = st.seen.filter (fun x => ¬ (nodeResult env x).isSome = true)
  keys_nodup : (st.topology.switches.map Prod.fst).Nodup
  topo_lookup : ∀ x, lookupEntry st.topology.switches x =
      if x ∈ st.seen then nodeResult env x else none

theorem masterInv_step (env : Env) (pick : Finset String → String)
    (hpick : ValidPick pick) (hWA : WellAddressed env) (st : LoopState)
    (hne : st.candidate ≠ ∅) (h : MasterInv env st) :
    MasterInv env (crawlStep env pick st) := by
  have hmem : pick st.candidate ∈ st.candidate :=
    hpick _ (Finset.nonempty_iff_ne_empty.mpr hne)
  have hseen : pick st.candidate ∉ st.seen := Finset.disjoint_left.mp h.disj hmem
  have hdisj := crawlStep_disjoint env pick st h.disj
  cases hnr : nodeResult env (pick st.candidate) with
  | none =>
    rw [crawlStep_failure env pick st hnr] at hdisj ⊢
    refine ⟨hdisj, ?_, ?_, h.keys_nodup, ?_⟩
    · dsimp only
      rw [Finset.filter_insert, if_neg (by simp [hnr]), h.disc_eq]
    · dsimp only
      rw [Finset.filter_insert, if_pos (by simp [hnr]), h.fail_eq]
    · intro x
      dsimp only
      rw [h.topo_lookup x]
      by_cases hx : x = pick st.candidate
      · subst hx
        rw [if_neg hseen, if_pos (Finset.mem_insert_self _ _), hnr]
      · by_cases hxs : x ∈ st.seen
        · rw [if_pos hxs, if_pos (Finset.mem_insert_of_mem hxs)]
        · rw [if_neg hxs, if_neg (by simp [Finset.mem_insert, hx, hxs])]
  | some info =>
    have hip : info.ip = pick st.candidate := nodeResult_ip env _ info hWA hnr
    rw [crawlStep_success env pick st info hnr] at hdisj ⊢
    refine ⟨hdisj, ?_, ?_, ?_, ?_⟩
    · dsimp only
      rw [hip, Finset.filter_insert, if_pos (by simp [hnr]), h.disc_eq]
    · dsimp only
      rw [Finset.filter_insert, if_neg (by simp [hnr]), h.fail_eq]
    · exact keys_nodup_insertEntry info _ h.keys_nodup
    · intro x
      dsimp only [add_switch]
      rw [lookup_insertEntry, h.topo_lookup x]
      by_cases hx : x = pick st.candidate
      · subst hx
        rw [if_pos hip.symm, if_pos (Finset.mem_insert_self _ _), hnr]
      · rw [if_neg (fun hh : x = info.ip => hx (hh.trans hip))]
        by_cases hxs : x ∈ st.seen
        · rw [if_pos hxs, if_pos (Finset.mem_insert_of_mem hxs)]
        · rw [if_neg hxs, if_neg (by simp [Finset.mem_insert, hx, hxs])]

theorem masterInv_init (env : Env) (now : Nat) (seed : String) :
    MasterInv env (initLoopState (withTimestamp initEngine now) seed) := by
  refine ⟨?_, ?_, ?_, ?_, ?_⟩ <;>
    simp [initLoopState, withTimestamp, initEngine, lookupEntry]

theorem masterInv_run (env : Env) (pick : Finset String → String)
    (hpick : ValidPick pick) (hWA : WellAddressed env)
    (fuel now : Nat) (seed : String) :
    MasterInv env (discover_network env pick fuel now initEngine seed) :=
  crawlLoop_inv env pick (MasterInv env)
    (fun st hne h => masterInv_step env pick hpick hWA st hne h)
    fuel _ (masterInv_init env now seed)

theorem nbrIps_of_some (env : Env) (a : String) (info : SwitchInfo)
    (h : nodeResult env a = some info) : nbrIps env a = info.neighbors.map (·.ip) := by
  unfold nbrIps
  rw [h]

theorem nbrIps_of_none (env : Env) (a : String)
    (h : nodeResult env a = none) : nbrIps env a = [] := by
  unfold nbrIps
  rw [h]

/-! ## Termination -/

/-- A finite neighbor environment: a finite address universe containing
every address a successful visit of one of its members can report as a
neighbor. -/
def ClosedUnder (env : Env) (U : Finset String) : Prop :=
  ∀ a ∈ U, ∀ b ∈ nbrIps env a, b ∈ U

theorem crawlLoop_drains (env : Env) (pick : Finset String → String) (U : Finset String)
    (hpick : ValidPick pick) (hcl : ClosedUnder env U) :
    ∀ fuel st, st.candidate ⊆ U → Disjoint st.candidate st.seen →
      (U \ st.seen).card ≤ fuel → (crawlLoop env pick fuel st).candidate = ∅ := by
  intro fuel
  induction fuel with
  | zero =>
    intro st hsub hdisj hcard
    by_cases hc : st.candidate = ∅
    · simpa [crawlLoop] using hc
    · exfalso
      have hmem : pick st.candidate ∈ st.candidate :=
        hpick _ (Finset.nonempty_iff_ne_empty.mpr hc)
      have : pick st.candidate ∈ U \ st.seen :=
        Finset.mem_sdiff.mpr ⟨hsub hmem, Finset.disjoint_left.mp hdisj hmem⟩
      have := Finset.card_pos.mpr ⟨_, this⟩
      omega
  | succ n ih =>
    intro st hsub hdisj hcard
    unfold crawlLoop
    by_cases hc : st.candidate = ∅
    · rw [if_pos hc]; exact hc
    · rw [if_neg hc]
      have hmem : pick st.candidate ∈ st.candidate :=
        hpick _ (Finset.nonempty_iff_ne_empty.mpr hc)
      have haU : pick st.candidate ∈ U := hsub hmem
      have haseen : pick st.candidate ∉ st.seen := Finset.disjoint_left.mp hdisj hmem
      refine ih _ ?_ (crawlStep_disjoint env pick st hdisj) ?_
      · cases hnr : nodeResult env (pick st.candidate) with
        | none =>
          rw [crawlStep_failure env pick st hnr]
          exact fun x hx => hsub (Finset.mem_erase.mp hx).2
        | some info =>
          rw [crawlStep_success env pick st info hnr]
          intro x hx
          rcases (mem_enqueue _ _ _ x).mp hx with hx | ⟨_, m, hm, hmx⟩
          · exact hsub (Finset.mem_erase.mp hx).2
          · refine hcl _ haU x ?_
            rw [nbrIps_of_some env _ info hnr]
            exact List.mem_map.mpr ⟨m, hm, hmx⟩
      · rw [crawlStep_seen]
        rw [Finset.sdiff_insert]
        have hms : pick st.candidate ∈ U \ st.seen := Finset.mem_sdiff.mpr ⟨haU, haseen⟩
        rw [Finset.card_erase_of_mem hms]
        omega

/-! ## The visit trace: every address is popped at most once -/

structure TraceInv (st : LoopState) : Prop where
  nodup : st.trace.Nodup
  sub : ∀ x ∈ st.trace, x ∈ st.seen
  disj : Disjoint st.candidate st.seen

theorem traceInv_step (env : Env) (pick : Finset String → String)
    (hpick : ValidPick pick) (st : LoopState) (hne : st.candidate ≠ ∅)
    (h : TraceInv st) : TraceInv (crawlStep env pick st) := by
  have hmem : pick st.candidate ∈ st.candidate :=
    hpick _ (Finset.nonempty_iff_ne_empty.mpr hne)
  have hseen : pick st.candidate ∉ st.seen := Finset.disjoint_left.mp h.disj hmem
  refine ⟨?_, ?_, crawlStep_disjoint env pick st h.disj⟩
  · rw [crawlStep_trace]
    refine List.Nodup.append h.nodup (List.nodup_singleton _) ?_
    intro x hx hx'
    rw [List.mem_singleton] at hx'
    subst hx'
    exact hseen (h.sub _ hx)
  · intro x hx
    rw [crawlStep_trace] at hx
    rw [crawlStep_seen]
    rcases List.mem_append.mp hx with hx | hx
    · exact Finset.mem_insert_of_mem (h.sub _ hx)
    · rw [List.mem_singleton] at hx
      subst hx
      exact Finset.mem_insert_self _ _

theorem traceInv_run (env : Env) (pick : Finset String → String) (hpick : ValidPick pick)
    (fuel now : Nat) (es : EngineState) (seed : String) :
    TraceInv (discover_network env pick fuel now es seed) := by
  refine crawlLoop_inv env pick TraceInv
    (fun st hne h => traceInv_step env pick hpick st hne h) fuel _ ?_
  exact ⟨List.nodup_nil, by simp [initLoopState], by simp [initLoopState]⟩

/-! ## The set of popped addresses equals the reachable set -/

/-- Addresses reachable from the seed over the neighbor lists of
successfully discovered devices: a function of the environment and the
seed only, independent of visitation order. -/
inductive Reach (env : Env) (seed : String) : String → Prop
  | base : Reach env seed seed
  | step (a b : String) (ha : Reach env seed a) (hb : b ∈ nbrIps env a) : Reach env seed b

structure ReachInv (env : Env) (seed : String) (st : LoopState) : Prop where
  cand : ∀ x ∈ st.candidate, Reach env seed x
  seenR : ∀ x ∈ st.seen, Reach env seed x
  seedMem : seed ∈ st.seen ∪ st.candidate
  closed : ∀ x ∈ st.seen, ∀ b ∈ nbrIps env x, b ∈ st.seen ∪ st.candidate

theorem reachInv_step (env : Env) (pick : Finset String → String)
    (hpick : ValidPick pick) (seed : String) (st : LoopState)
    (hne : st.candidate ≠ ∅) (h : ReachInv env seed st) :
    ReachInv env seed (crawlStep env pick st) := by
  have hmem : pick st.candidate ∈ st.candidate :=
    hpick _ (Finset.nonempty_iff_ne_empty.mpr hne)
  have hreach : Reach env seed (pick st.candidate) := h.cand _ hmem
  have oldUnion : ∀ x, x ∈ st.seen ∪ st.candidate →
      x ∈ insert (pick st.candidate) st.seen ∪ st.candidate.erase (pick st.candidate) := by
    intro x hx
    rcases Finset.mem_union.mp hx with hx | hx
    · exact Finset.mem_union_left _ (Finset.mem_insert_of_mem hx)
    · by_cases hxa : x = pick st.candidate
      · exact Finset.mem_union_left _ (hxa ▸ Finset.mem_insert_self _ _)
      · exact Finset.mem_union_right _ (Finset.mem_erase.mpr ⟨hxa, hx⟩)
  cases hnr : nodeResult env (pick st.candidate) with
  | none =>
    rw [crawlStep_failure env pick st hnr]
    refine ⟨?_, ?_, ?_, ?_⟩ <;> dsimp only
    · exact fun x hx => h.cand _ (Finset.mem_erase.mp hx).2
    · intro x hx
      rcases Finset.mem_insert.mp hx with rfl | hx
      · exact hreach
      · exact h.seenR _ hx
    · exact oldUnion _ h.seedMem
    · intro x hx b hb
      rcases Finset.mem_insert.mp hx with rfl | hx
      · rw [nbrIps_of_none env _ hnr] at hb
        cases hb
      · exact oldUnion _ (h.closed _ hx _ hb)
  | some info =>
    rw [crawlStep_success env pick st info hnr]
    have enqSup : ∀ x, x ∈ st.candidate.erase (pick st.candidate) →
        x ∈ enqueue (insert (pick st.candidate) st.seen) info.neighbors
          (st.candidate.erase (pick st.candidate)) :=
      fun x hx => (mem_enqueue _ _ _ x).mpr (Or.inl hx)
    have oldUnion' : ∀ x, x ∈ st.seen ∪ st.candidate →
        x ∈ insert (pick st.candidate) st.seen ∪
          enqueue (insert (pick st.candidate) st.seen) info.neighbors
            (st.candidate.erase (pick st.candidate)) := by
      intro x hx
      rcases Finset.mem_union.mp (oldUnion x hx) with hx | hx
      · exact Finset.mem_union_left _ hx
      · exact Finset.mem_union_right _ (enqSup _ hx)
    refine ⟨?_, ?_, ?_, ?_⟩ <;> dsimp only
    · intro x hx
      rcases (mem_enqueue _ _ _ x).mp hx with hx | ⟨_, n, hn, hnx⟩
      · exact h.cand _ (Finset.mem_erase.mp hx).2
      · refine Reach.step (pick st.candidate) x hreach ?_
        rw [nbrIps_of_some env _ info hnr]
        exact List.mem_map.mpr ⟨n, hn, hnx⟩
    · intro x hx
      rcases Finset.mem_insert.mp hx with rfl | hx
      · exact hreach
      · exact h.seenR _ hx
    · exact oldUnion' _ h.seedMem
    · intro x hx b hb
      rcases Finset.mem_insert.mp hx with rfl | hx
      · rw [nbrIps_of_some env _ info hnr] at hb
        obtain ⟨n, hn, hnb⟩ := List.mem_map.mp hb
        by_cases hbs : b ∈ insert (pick st.candidate) st.seen
        · exact Finset.mem_union_left _ hbs
        · exact Finset.mem_union_right _
            ((mem_enqueue _ _ _ b).mpr (Or.inr ⟨hbs, n, hn, hnb⟩))
      · exact oldUnion' _ (h.closed _ hx _ hb)

theorem reachInv_run (env : Env) (pick : Finset String → String) (hpick : ValidPick pick)
    (fuel now : Nat) (es : EngineState) (seed : String) :
    ReachInv env seed (discover_network env pick fuel now es seed) := by
  refine crawlLoop_inv env pick (ReachInv env seed)
    (fun st hne h => reachInv_step env pick hpick seed st hne h) fuel _ ?_
  refine ⟨?_, ?_, ?_, ?_⟩ <;> simp [initLoopState, Reach.base]

/-- At a drained final state, the popped addresses are exactly the
reachable ones — independent of the pop order. -/
theorem seen_eq_reach (env : Env) (pick : Finset String → String) (hpick : ValidPick pick)
    (fuel now : Nat) (es : EngineState) (seed : String)
    (hdrained : (discover_network env pick fuel now es seed).candidate = ∅) :
    ∀ x, x ∈ (discover_network env pick fuel now es seed).seen ↔ Reach env seed x := by
  have hinv := reachInv_run env pick hpick fuel now es seed
  set final := discover_network env pick fuel now es seed with hfin
  intro x
  constructor
  · exact hinv.seenR x
  · intro hr
    induction hr with
    | base =>
      have := hinv.seedMem
      rw [hdrained] at this
      simpa using this
    | step a b ha hb iha =>
      have := hinv.closed a iha b hb
      rw [hdrained] at this
      simpa using this

/-! ## Statistics fold lemmas -/

theorem stats_fold_const (l : List (String × SwitchInfo)) (s : TopologyStats) :
    ((l.foldl (fun s e =>
      { s with
        switch_types := bump s.switch_types (typeKey e.2)
        total_neighbors := s.total_neighbors + e.2.neighbors.length }) s).total_switches
      = s.total_switches) ∧
    ((l.foldl (fun s e =>
      { s with
        switch_types := bump s.switch_types (typeKey e.2)
        total_neighbors := s.total_neighbors + e.2.neighbors.length }) s).discovery_timestamp
      = s.discovery_timestamp) ∧
    ((l.foldl (fun s e =>
      { s with
        switch_types := bump s.switch_types (typeKey e.2)
        total_neighbors := s.total_neighbors + e.2.neighbors.length }) s).discovered_ips
      = s.discovered_ips) ∧
    ((l.foldl (fun s e =>
      { s with
        switch_types := bump s.switch_types (typeKey e.2)
        total_neighbors := s.total_neighbors + e.2.neighbors.length }) s).failed_ips
      = s.failed_ips) := by
  induction l generalizing s with
  | nil => exact ⟨rfl, rfl, rfl, rfl⟩
  | cons e rest ih => exact ih _

theorem stats_fold_total_neighbors (l : List (String × SwitchInfo)) (s : TopologyStats) :
    (l.foldl (fun s e =>
      { s with
        switch_types := bump s.switch_types (typeKey e.2)
        total_neighbors := s.total_neighbors + e.2.neighbors.length }) s).total_neighbors
      = s.total_neighbors + (l.map (fun e => e.2.neighbors.length)).sum := by
  induction l generalizing s with
  | nil => simp
  | cons e rest ih =>
    simp only [List.foldl_cons, List.map_cons, List.sum_cons]
    rw [ih]
    dsimp only
    omega

theorem histCount_bump (m : List (String × Nat)) (t k : String) :
    histCount (bump m t) k = histCount m k + (if t = k then 1 else 0) := by
  induction m with
  | nil =>
    simp only [bump, histCount]
    split_ifs <;> omega
  | cons p rest ih =>
    obtain ⟨k', v⟩ := p
    by_cases hk' : k' = t
    · subst hk'
      simp only [bump, if_pos rfl, histCount]
      split_ifs <;> omega
    · simp only [bump, if_neg hk', histCount]
      by_cases hk : k' = k
      · have htk : ¬ t = k := fun h => hk' (hk.trans h.symm)
        rw [if_pos hk, if_pos hk, if_neg htk]
        omega
      · rw [if_neg hk, if_neg hk, ih]

theorem stats_fold_types (l : List (String × SwitchInfo)) (s : TopologyStats) (k : String) :
    histCount ((l.foldl (fun s e =>
      { s with
        switch_types := bump s.switch_types (typeKey e.2)
        total_neighbors := s.total_neighbors + e.2.neighbors.length }) s).switch_types) k
      = histCount s.switch_types k + (l.countP (fun e => typeKey e.2 == k)) := by
  induction l generalizing s with
  | nil => simp
  | cons e rest ih =>
    simp only [List.foldl_cons]
    rw [ih]
    dsimp only
    rw [histCount_bump]
    rw [List.countP_cons]
    by_cases ht : typeKey e.2 = k
    · simp [ht]
      omega
    · simp [ht]

/-! ## Characterising the total neighbor count -/

theorem lookup_isSome_iff_mem_keys (l : List (String × SwitchInfo)) (x : String) :
    (lookupEntry l x).isSome = true ↔ x ∈ l.map Prod.fst := by
  induction l with
  | nil => simp [lookupEntry]
  | cons p rest ih =>
    obtain ⟨k, v⟩ := p
    by_cases hk : k = x
    · subst hk
      simp [lookupEntry]
    · simp only [lookupEntry, if_neg hk, List.map_cons, List.mem_cons, ih]
      constructor
      · exact Or.inr
      · rintro (rfl | h)
        · exact absurd rfl hk
        · exact h

theorem totalNeighbors_char (env : Env) (st : LoopState) (h : MasterInv env st) :
    (st.topology.switches.map (fun e => e.2.neighbors.length)).sum =
      ∑ a in st.seen.filter (fun x => (nodeResult env x).isSome = true),
        ((nodeResult env a).map (fun i => i.neighbors.length)).getD 0 := by
  have hmap : st.topology.switches.map (fun e => e.2.neighbors.length)
      = st.topology.switches.map
          (fun e => ((nodeResult env e.1).map (fun i => i.neighbors.length)).getD 0) := by
    apply List.map_congr_left
    intro e he
    obtain ⟨k, v⟩ := e
    have hl : lookupEntry st.topology.switches k = some v :=
      lookup_of_mem_nodup _ _ _ h.keys_nodup he
    rw [h.topo_lookup k] at hl
    by_cases hk : k ∈ st.seen
    · rw [if_pos hk] at hl
      dsimp only
      rw [hl]
      rfl
    · rw [if_neg hk] at hl
      cases hl
  rw [hmap]
  rw [show st.topology.switches.map
        (fun e => ((nodeResult env e.1).map (fun i => i.neighbors.length)).getD 0)
      = (st.topology.switches.map Prod.fst).map
        (fun a => ((nodeResult env a).map (fun i => i.neighbors.length)).getD 0) by
    rw [List.map_map]
    rfl]
  rw [← List.sum_toFinset _ h.keys_nodup]
  apply Finset.sum_congr
  · ext x
    rw [List.mem_toFinset, ← lookup_isSome_iff_mem_keys, h.topo_lookup x]
    by_cases hx : x ∈ st.seen
    · simp [hx]
    · simp [hx]
  · intro x _
    rfl

/-! ## Monotonicity of the persisted engine sets -/

theorem crawlStep_mono (env : Env) (pick : Finset String → String) (st : LoopState) :
    st.discovered ⊆ (crawlStep env pick st).discovered ∧
      st.failed ⊆ (crawlStep env pick st).failed := by
  cases hnr : nodeResult env (pick st.candidate) with
  | none =>
    rw [crawlStep_failure env pick st hnr]
    exact ⟨Finset.Subset.refl _, Finset.subset_insert _ _⟩
  | some info =>
    rw [crawlStep_success env pick st info hnr]
    exact ⟨Finset.subset_insert _ _, Finset.Subset.refl _⟩

theorem discover_network_mono (env : Env) (pick : Finset String → String)
    (fuel now : Nat) (es : EngineState) (seed : String) :
    es.discovered ⊆ (discover_network env pick fuel now es seed).discovered ∧
      es.failed ⊆ (discover_network env pick fuel now es seed).failed := by
  refine crawlLoop_inv env pick
    (fun st => es.discovered ⊆ st.discovered ∧ es.failed ⊆ st.failed)
    (fun st _ h => ⟨h.1.trans (crawlStep_mono env pick st).1,
      h.2.trans (crawlStep_mono env pick st).2⟩) fuel _ ?_
  exact ⟨Finset.Subset.refl _, Finset.Subset.refl _⟩

/-! ## Draining the worklist from the seed -/

theorem discover_network_drains (env : Env) (pick : Finset String → String)
    (U : Finset String) (fuel now : Nat) (es : EngineState) (seed : String)
    (hpick : ValidPick pick) (hcl : ClosedUnder env U)
    (hseed : seed ∈ U) (hfuel : U.card ≤ fuel) :
    (discover_network env pick fuel now es seed).candidate = ∅ := by
  apply crawlLoop_drains env pick U hpick hcl fuel
  · intro x hx
    rw [initLoopState] at hx
    simp only [Finset.mem_singleton] at hx
    exact hx ▸ hseed
  · simp [initLoopState]
  · simpa [initLoopState] using hfuel

/-! ## The Hirschmann VLAN port-membership filter
(`plugins/filter/hirschmann/vlan.py`, `parse_vlan_ports_table`) -/

/-- The pair of dicts the filter returns. -/
structure VlanTable where
  ports_to_vlans : List (String × List String)
  vlans_to_ports : List (String × List String)
deriving DecidableEq

/-- Python dict assignment `m[k] = v` (update in place, append if absent). -/
def dictSet : List (String × List String) → String → List String → List (String × List String)
  | [], k, v => [(k, v)]
  | (k1, v1) :: rest, k, v =>
    if k1 = k then (k1, v) :: rest else (k1, v1) :: dictSet rest k v

/-- Python `m[k].append(x)` for a key `k` present in `m` (both call sites
only ever pass keys of the dict: a port from the port-number list the
dict was built over, or a vlan id assigned just before; an absent key —
a Python `KeyError` — cannot occur and is modelled as a no-op). -/
def dictAppend : List (String × List String) → String → String → List (String × List String)
  | [], _, _ => []
  | (k1, v1) :: rest, k, x =>
    if k1 = k then (k1, v1 ++ [x]) :: rest else (k1, v1) :: dictAppend rest k x

/-- Python `str.strip()`: drop whitespace from both ends (written over
the character list so the kernel can evaluate it). -/
def pyStrip (s : String) : String :=
  String.mk (((s.data.dropWhile Char.isWhitespace).reverse.dropWhile Char.isWhitespace).reverse)

/-- Python `str.startswith(pre)`. -/
def pyStartsWith (s pre : String) : Bool := pre.data.isPrefixOf s.data

/-- Lines 78-82: the first line whose stripped form starts with
`Interface` (a found line is necessarily non-empty, so the line-83
falsiness test `if not port_line` is exactly "no such line"). -/
def findPortLine : List String → Option String
  | [] => none
  | l :: rest => if pyStartsWith (pyStrip l) "Interface" then some l else findPortLine rest

/-- Helper for `str.split()`: walk the characters keeping the current
word (reversed); whitespace closes a word, empty words are dropped. -/
def wordsAux : List Char → List Char → List String
  | [], acc => if acc = [] then [] else [String.mk acc.reverse]
  | c :: cs, acc =>
    if c.isWhitespace then
      if acc = [] then wordsAux cs [] else String.mk acc.reverse :: wordsAux cs []
    else wordsAux cs (c :: acc)

/-- Python `str.split()` with no argument: split on whitespace runs,
discarding empty pieces. -/
def pySplit (s : String) : List String := wordsAux s.data []

/-- Lines 93-95: the 1-based positions (as strings) of the digit
characters of the stripped header tail. -/
def portNumbers (port_digits : String) : List String :=
  port_digits.data.enum.filterMap
    (fun ci => if ci.2.isDigit then some (toString (ci.1 + 1)) else none)

/-- Lines 101-117: one pass of the membership loop over a line.  A line
is skipped when its stripped form is empty, its first stripped character
is not a digit, or it splits into fewer than two fields; otherwise the
`T`/`U` columns of its last field record the vlan (first field) against
the port at that column.  The line-112 `break` at `idx ≥ len(port_numbers)`
is a `takeWhile`, since the enumerated indices increase. -/
def processMemberLine (port_numbers : List String) (acc : VlanTable) (line : String) : VlanTable :=
  match (pyStrip line).data with
  | [] => acc
  | c :: _ =>
    if ¬ c.isDigit then acc
    else
      let parts := pySplit line
      if parts.length < 2 then acc
      else
        let vlan_id := parts.headD ""
        let membership := parts.getLastD ""
        (membership.data.enum.takeWhile (fun p => p.1 < port_numbers.length)).foldl
          (fun a p =>
            if p.2 = 'T' ∨ p.2 = 'U' then
              { a with
                ports_to_vlans := dictAppend a.ports_to_vlans (port_numbers.getD p.1 "") vlan_id
                vlans_to_ports := dictAppend a.vlans_to_ports vlan_id (port_numbers.getD p.1 "") }
            else a)
          { acc with vlans_to_ports := dictSet acc.vlans_to_ports vlan_id [] }

/-- `parse_vlan_ports_table` (lines 43-118): find the port header line
(raising `AnsibleFilterError` if absent), locate its colon (raising if
absent), extract the 1-based port numbers from the digit positions after
the colon, seed `ports_to_vlans` with one empty list per port (the
line-97 dict comprehension; the port numbers are pairwise distinct), and
fold the membership loop over all input lines. -/
def parse_vlan_ports_table (stdout_lines : List String) : Except String VlanTable :=
  match findPortLine stdout_lines with
  | none => .error "Could not find port header in output"
  | some port_line =>
    match port_line.data.findIdx? (fun c => c = ':') with
    | none => .error "Malformed port header line"
    | some port_index =>
      let port_numbers := portNumbers (pyStrip (String.mk (port_line.data.drop (port_index + 1))))
      .ok (stdout_lines.foldl (processMemberLine port_numbers)
        { ports_to_vlans := port_numbers.map (fun p => (p, []))
          vlans_to_ports := [] })

theorem findPortLine_eq_none (lines : List String)
    (h : ∀ l ∈ lines, pyStartsWith (pyStrip l) "Interface" = false) :
    findPortLine lines = none := by
  induction lines with
  | nil => rfl
  | cons l rest ih =>
    have hl := h l (List.mem_cons_self _ _)
    simp only [findPortLine, hl, Bool.false_eq_true, if_false]
    exact ih fun x hx => h x (List.mem_cons_of_mem _ hx)

/-! ## Concrete environments for the scenario claims -/

/-- Credentials used by every concrete test environment. -/
def testCreds : Credentials := { username := "admin", password := "secret" }

/-- A probe answer classifying the device as a (registered) hirschmann. -/
def okProbe : ProbeResult := { vendor := some "hirschmann", credentials := some testCreds }

/-- Scenario C of §8: seed X reports neighbor Y; Y's strategy raises a
transport failure. -/
def envC : Env :=
  { probe := fun a => if a = "X" ∨ a = "Y" then .ok okProbe else .error "unreachable"
    registered := defaultRegistry
    discover := fun a =>
      if a = "X" then
        .ok { ip := "X", type := some "hirschmann", neighbors := [{ ip := "Y", port := "1/1" }] }
      else .error "transport failure" }

/-- Scenario D of §8: the two-node cycle X ↔ Y, both discoveries succeed. -/
def envD : Env :=
  { probe := fun a => if a = "X" ∨ a = "Y" then .ok okProbe else .error "unreachable"
    registered := defaultRegistry
    discover := fun a =>
      if a = "X" then
        .ok { ip := "X", type := some "hirschmann", neighbors := [{ ip := "Y", port := "1/1" }] }
      else if a = "Y" then
        .ok { ip := "Y", type := some "hirschmann", neighbors := [{ ip := "X", port := "1/2" }] }
      else .error "unreachable" }

/-- A strategy that misreports its address: probing X succeeds but the
returned record carries address Z. -/
def envRogue : Env :=
  { probe := fun a => if a = "X" then .ok okProbe else .error "unreachable"
    registered := defaultRegistry
    discover := fun a =>
      if a = "X" then .ok { ip := "Z", type := some "hirschmann", neighbors := [] }
      else .error "unreachable" }

/-- Two distinct addresses A and B whose records collide on address Z
with different neighbor lists, so the last one visited owns the Z entry. -/
def envCollide : Env :=
  { probe := fun a =>
      if a = "X" ∨ a = "A" ∨ a = "B" ∨ a = "C" then .ok okProbe else .error "unreachable"
    registered := defaultRegistry
    discover := fun a =>
      if a = "X" then
        .ok { ip := "X", type := some "hirschmann",
              neighbors := [{ ip := "A", port := "1/1" }, { ip := "B", port := "1/2" }] }
      else if a = "A" then
        .ok { ip := "Z", type := some "hirschmann", neighbors := [] }
      else if a = "B" then
        .ok { ip := "Z", type := some "hirschmann", neighbors := [{ ip := "C", port := "1/3" }] }
      else if a = "C" then
        .ok { ip := "C", type := some "hirschmann", neighbors := [] }
      else .error "unreachable" }

/-- Seed X succeeds with no neighbors; every other address is unreachable. -/
def envSolo : Env :=
  { probe := fun a => if a = "X" then .ok okProbe else .error "unreachable"
    registered := defaultRegistry
    discover := fun a =>
      if a = "X" then .ok { ip := "X", type := some "hirschmann", neighbors := [] }
      else .error "unreachable" }

/-- A probe classifying the device with a vendor tag that has no
registered discovery class. -/
def envUnreg : Env :=
  { probe := fun a =>
      if a = "X" then .ok { vendor := some "cisco", credentials := some testCreds }
      else .error "unreachable"
    registered := defaultRegistry
    discover := fun _ => .error "never invoked" }

theorem envD_wellAddressed : WellAddressed envD := by
  intro a info h
  simp only [envD] at h
  split at h
  next ha =>
    injection h with h2
    subst ha
    rw [← h2]
  next =>
    split at h
    next hb =>
      injection h with h2
      subst hb
      rw [← h2]
    next => exact Except.noConfusion h

/-- A helper restating the neighbor total of the statistics as the sum of
the stored neighbor-list lengths. -/
theorem stats_total_neighbors_eq (es : EngineState) :
    (get_topology_stats es).total_neighbors =
      (es.topology.switches.map (fun e => e.2.neighbors.length)).sum := by
  unfold get_topology_stats
  rw [stats_fold_total_neighbors]
  exact Nat.zero_add _

/-! ## The claims -/

/-- C1 (amended): for every crawl run on a freshly constructed engine,
provided every record a strategy returns reports the probed address as its
own (the topology invariant the spec assumes of the collaborators), the
Discovered and Failed sets are disjoint and their union equals the Seen
set of popped addresses — after any number of loop iterations, in
particular at termination. -/
theorem c1_discovered_failed_partition_seen
    (env : Env) (pick : Finset String → String) (fuel now : Nat) (seed : String)
    (hpick : ValidPick pick) (hWA : WellAddressed env) :
    (discover_network env pick fuel now initEngine seed).discovered ∩
      (discover_network env pick fuel now initEngine seed).failed = ∅ ∧
    (discover_network env pick fuel now initEngine seed).discovered ∪
      (discover_network env pick fuel now initEngine seed).failed =
      (discover_network env pick fuel now initEngine seed).seen := by
  have h := masterInv_run env pick hpick hWA fuel now seed
  refine ⟨?_, ?_⟩
  · rw [h.disc_eq, h.fail_eq, ← Finset.disjoint_iff_inter_eq_empty]
    exact Finset.disjoint_filter_filter_neg _ _ _
  · rw [h.disc_eq, h.fail_eq]
    exact Finset.filter_union_filter_neg_eq _ _

/-- Witness for C1: the cycle environment, drained at fuel 3. -/
theorem c1_discovered_failed_partition_seen_witness :
    (discover_network envD pickMin 3 0 initEngine "X").discovered ∩
      (discover_network envD pickMin 3 0 initEngine "X").failed = ∅ ∧
    (discover_network envD pickMin 3 0 initEngine "X").discovered ∪
      (discover_network envD pickMin 3 0 initEngine "X").failed =
      (discover_network envD pickMin 3 0 initEngine "X").seen :=
  c1_discovered_failed_partition_seen envD pickMin 3 0 "X"
    validPick_pickMin envD_wellAddressed

/-- C1 is false as stated "over any behaviour of the collaborators": with
the strategy for X returning a record addressed Z, the terminated run has
Discovered ∪ Failed = Z alone, while Seen is X alone. -/
theorem c1_counterexample :
    (discover_network envRogue pickMin 2 0 initEngine "X").candidate = ∅ ∧
    ¬ ((discover_network envRogue pickMin 2 0 initEngine "X").discovered ∪
        (discover_network envRogue pickMin 2 0 initEngine "X").failed =
        (discover_network envRogue pickMin 2 0 initEngine "X").seen) := by
  decide

/-- C2: an exception raised by the probe, and any failure signaled by an
invoked strategy, are absorbed at the per-node boundary: the popped
address joins Failed, the discovered set and the topology are untouched,
no neighbor is enqueued, and the loop continues with the remaining
candidates (the embedded `discover_network` is total, so the run still
returns its topology object). -/
theorem c2_per_node_failure_isolated
    (env : Env) (pick : Finset String → String) (st : LoopState) (fuel : Nat) (a : String)
    (hne : st.candidate ≠ ∅) (ha : a = pick st.candidate)
    (hfail : (∃ e, env.probe a = .error e) ∨
      (∃ v c, env.probe a = .ok ⟨some v, some c⟩ ∧ env.registered v = true ∧
        ∃ e, env.discover a = .error e)) :
    (crawlStep env pick st).failed = insert a st.failed ∧
    (crawlStep env pick st).discovered = st.discovered ∧
    (crawlStep env pick st).topology = st.topology ∧
    (crawlStep env pick st).candidate = st.candidate.erase a ∧
    crawlLoop env pick (fuel + 1) st = crawlLoop env pick fuel (crawlStep env pick st) := by
  have hnone : nodeResult env a = none := by
    rcases hfail with ⟨e, he⟩ | ⟨v, c, hp, hr, e, hd⟩
    · unfold nodeResult
      rw [he]
    · unfold nodeResult
      rw [hp]
      show (if env.registered v = true then (env.discover a).toOption else none) = none
      rw [if_pos hr, hd]
      rfl
  subst ha
  refine ⟨?_, ?_, ?_, ?_, ?_⟩
  · rw [crawlStep_failure env pick st hnone]
  · rw [crawlStep_failure env pick st hnone]
  · rw [crawlStep_failure env pick st hnone]
  · rw [crawlStep_failure env pick st hnone]
  · rw [show crawlLoop env pick (fuel + 1) st
        = if st.candidate = ∅ then st
          else crawlLoop env pick fuel (crawlStep env pick st) from rfl]
    rw [if_neg hne]

/-- Witness for C2: Y's transport failure in the scenario-C environment. -/
theorem c2_per_node_failure_isolated_witness :
    (crawlStep envC pickMin (initLoopState (withTimestamp initEngine 0) "Y")).failed =
      insert "Y" (initLoopState (withTimestamp initEngine 0) "Y").failed ∧
    (crawlStep envC pickMin (initLoopState (withTimestamp initEngine 0) "Y")).discovered =
      (initLoopState (withTimestamp initEngine 0) "Y").discovered ∧
    (crawlStep envC pickMin (initLoopState (withTimestamp initEngine 0) "Y")).topology =
      (initLoopState (withTimestamp initEngine 0) "Y").topology ∧
    (crawlStep envC pickMin (initLoopState (withTimestamp initEngine 0) "Y")).candidate =
      (initLoopState (withTimestamp initEngine 0) "Y").candidate.erase "Y" ∧
    crawlLoop envC pickMin 1 (initLoopState (withTimestamp initEngine 0) "Y") =
      crawlLoop envC pickMin 0
        (crawlStep envC pickMin (initLoopState (withTimestamp initEngine 0) "Y")) :=
  c2_per_node_failure_isolated envC pickMin (initLoopState (withTimestamp initEngine 0) "Y")
    0 "Y" (by decide) (by decide)
    (Or.inr ⟨"hirschmann", testCreds, by decide, by decide, "transport failure", by decide⟩)

/-- C3: a probed vendor tag with no registered discovery class makes
`discovery_classes.get` return `None`; calling it raises `TypeError`,
which the per-node handler catches: the address joins Failed, nothing
else changes, and the loop continues — no lookup error escapes. -/
theorem c3_unregistered_vendor_isolated
    (env : Env) (pick : Finset String → String) (st : LoopState) (fuel : Nat)
    (a v : String) (c : Credentials)
    (hne : st.candidate ≠ ∅) (ha : a = pick st.candidate)
    (hp : env.probe a = .ok ⟨some v, some c⟩) (hr : env.registered v = false) :
    (crawlStep env pick st).failed = insert a st.failed ∧
    (crawlStep env pick st).discovered = st.discovered ∧
    (crawlStep env pick st).topology = st.topology ∧
    (crawlStep env pick st).candidate = st.candidate.erase a ∧
    crawlLoop env pick (fuel + 1) st = crawlLoop env pick fuel (crawlStep env pick st) := by
  have hnone : nodeResult env a = none := by
    unfold nodeResult
    rw [hp]
    show (if env.registered v = true then (env.discover a).toOption else none) = none
    rw [hr]
    simp
  subst ha
  refine ⟨?_, ?_, ?_, ?_, ?_⟩
  · rw [crawlStep_failure env pick st hnone]
  · rw [crawlStep_failure env pick st hnone]
  · rw [crawlStep_failure env pick st hnone]
  · rw [crawlStep_failure env pick st hnone]
  · rw [show crawlLoop env pick (fuel + 1) st
        = if st.candidate = ∅ then st
          else crawlLoop env pick fuel (crawlStep env pick st) from rfl]
    rw [if_neg hne]

/-- Witness for C3: an unregistered cisco tag at the seed. -/
theorem c3_unregistered_vendor_isolated_witness :
    (crawlStep envUnreg pickMin (initLoopState (withTimestamp initEngine 0) "X")).failed =
      insert "X" (initLoopState (withTimestamp initEngine 0) "X").failed ∧
    (crawlStep envUnreg pickMin (initLoopState (withTimestamp initEngine 0) "X")).discovered =
      (initLoopState (withTimestamp initEngine 0) "X").discovered ∧
    (crawlStep envUnreg pickMin (initLoopState (withTimestamp initEngine 0) "X")).topology =
      (initLoopState (withTimestamp initEngine 0) "X").topology ∧
    (crawlStep envUnreg pickMin (initLoopState (withTimestamp initEngine 0) "X")).candidate =
      (initLoopState (withTimestamp initEngine 0) "X").candidate.erase "X" ∧
    crawlLoop envUnreg pickMin 1 (initLoopState (withTimestamp initEngine 0) "X") =
      crawlLoop envUnreg pickMin 0
        (crawlStep envUnreg pickMin (initLoopState (withTimestamp initEngine 0) "X")) :=
  c3_unregistered_vendor_isolated envUnreg pickMin
    (initLoopState (withTimestamp initEngine 0) "X") 0 "X" "cisco" testCreds
    (by decide) (by decide) (by decide) (by decide)

/-- C4 (amended): when the strategy for a popped address succeeds, the
record is stored in the topology keyed by the record's own reported
address (which the engine also adds to Discovered — equal to the popped
address exactly when the record reports it), every neighbor not yet in
Seen is enqueued, and a neighbor already in Seen is not: it is in the new
candidate set only if it already was before the visit. -/
theorem c4_success_updates
    (env : Env) (pick : Finset String → String) (st : LoopState)
    (a : String) (info : SwitchInfo)
    (ha : a = pick st.candidate) (hnr : nodeResult env a = some info) :
    get_switch (crawlStep env pick st).topology info.ip = some info ∧
    (crawlStep env pick st).discovered = insert info.ip st.discovered ∧
    (∀ n ∈ info.neighbors, n.ip ∉ insert a st.seen →
      n.ip ∈ (crawlStep env pick st).candidate) ∧
    (∀ n ∈ info.neighbors, n.ip ∈ insert a st.seen →
      (n.ip ∈ (crawlStep env pick st).candidate ↔ n.ip ∈ st.candidate.erase a)) := by
  subst ha
  rw [crawlStep_success env pick st info hnr]
  refine ⟨?_, rfl, ?_, ?_⟩
  · show get_switch (add_switch info st.topology) info.ip = some info
    unfold get_switch add_switch
    rw [lookup_insertEntry, if_pos rfl]
  · intro n hn hnot
    exact (mem_enqueue _ _ _ _).mpr (Or.inr ⟨hnot, n, hn, rfl⟩)
  · intro n hn hmem
    constructor
    · intro hx
      rcases (mem_enqueue _ _ _ _).mp hx with hx | ⟨hnot, _, _, _⟩
      · exact hx
      · exact absurd hmem hnot
    · intro hx
      exact (mem_enqueue _ _ _ _).mpr (Or.inl hx)

/-- The record envD's strategy returns for X. -/
def recX : SwitchInfo :=
  { ip := "X", type := some "hirschmann", neighbors := [{ ip := "Y", port := "1/1" }] }

/-- Witness for C4: the successful visit of X in the cycle environment. -/
theorem c4_success_updates_witness :
    get_switch (crawlStep envD pickMin (initLoopState (withTimestamp initEngine 0) "X")).topology
      recX.ip = some recX ∧
    (crawlStep envD pickMin (initLoopState (withTimestamp initEngine 0) "X")).discovered =
      insert recX.ip (initLoopState (withTimestamp initEngine 0) "X").discovered ∧
    (∀ n ∈ recX.neighbors,
      n.ip ∉ insert "X" (initLoopState (withTimestamp initEngine 0) "X").seen →
      n.ip ∈ (crawlStep envD pickMin (initLoopState (withTimestamp initEngine 0) "X")).candidate) ∧
    (∀ n ∈ recX.neighbors,
      n.ip ∈ insert "X" (initLoopState (withTimestamp initEngine 0) "X").seen →
      (n.ip ∈ (crawlStep envD pickMin (initLoopState (withTimestamp initEngine 0) "X")).candidate ↔
        n.ip ∈ (initLoopState (withTimestamp initEngine 0) "X").candidate.erase "X")) :=
  c4_success_updates envD pickMin (initLoopState (withTimestamp initEngine 0) "X") "X"
    recX (by decide) (by decide)

/-- C4 is false as stated: at the successful visit of X in `envRogue` the
engine keys the topology and updates Discovered by the record's address Z,
so X is neither a topology key nor in Discovered. -/
theorem c4_counterexample :
    nodeResult envRogue "X" =
      some { ip := "Z", type := some "hirschmann", neighbors := [] } ∧
    (discover_network envRogue pickMin 2 0 initEngine "X").candidate = ∅ ∧
    "X" ∉ (discover_network envRogue pickMin 2 0 initEngine "X").discovered ∧
    get_switch (discover_network envRogue pickMin 2 0 initEngine "X").topology "X" = none := by
  decide

/-- C5: on every finite neighbor environment (a finite universe U closed
under reported neighbors and containing the seed) the crawl drains its
worklist within U.card iterations, and no address is ever popped twice
(the visit trace has no duplicates); concretely, on the two-node cycle
X ↔ Y the run terminates with Discovered = X, Y and Y popped exactly
once. -/
theorem c5_terminates_never_revisits
    (env : Env) (pick : Finset String → String) (U : Finset String)
    (fuel now : Nat) (seed : String)
    (hpick : ValidPick pick) (hseed : seed ∈ U) (hcl : ClosedUnder env U)
    (hfuel : U.card ≤ fuel) :
    (discover_network env pick fuel now initEngine seed).candidate = ∅ ∧
    (discover_network env pick fuel now initEngine seed).trace.Nodup ∧
    ((discover_network envD pickMin 3 0 initEngine "X").discovered = {"X", "Y"} ∧
      (discover_network envD pickMin 3 0 initEngine "X").trace.count "Y" = 1 ∧
      (discover_network envD pickMin 3 0 initEngine "X").candidate = ∅) := by
  refine ⟨discover_network_drains env pick U fuel now initEngine seed hpick hcl hseed hfuel,
    (traceInv_run env pick hpick fuel now initEngine seed).nodup, ?_, ?_, ?_⟩ <;> decide

/-- Witness for C5: the cycle environment itself. -/
theorem c5_terminates_never_revisits_witness :
    (discover_network envD pickMin 3 0 initEngine "X").candidate = ∅ ∧
    (discover_network envD pickMin 3 0 initEngine "X").trace.Nodup ∧
    ((discover_network envD pickMin 3 0 initEngine "X").discovered = {"X", "Y"} ∧
      (discover_network envD pickMin 3 0 initEngine "X").trace.count "Y" = 1 ∧
      (discover_network envD pickMin 3 0 initEngine "X").candidate = ∅) :=
  c5_terminates_never_revisits envD pickMin {"X", "Y"} 3 0 "X"
    validPick_pickMin (by decide) (by unfold ClosedUnder; decide) (by decide)

/-- C6: Scenario C — seed X reports neighbor Y and Y's strategy raises a
transport failure: the run terminates with Discovered = X alone,
Failed = Y alone, exactly one topology entry, and the statistics report
one neighbor edge. -/
theorem c6_scenario_c :
    (discover_network envC pickMin 3 0 initEngine "X").candidate = ∅ ∧
    (discover_network envC pickMin 3 0 initEngine "X").discovered = {"X"} ∧
    (discover_network envC pickMin 3 0 initEngine "X").failed = {"Y"} ∧
    (discover_network envC pickMin 3 0 initEngine "X").topology.switches.length = 1 ∧
    (get_topology_stats (engineOf
      (discover_network envC pickMin 3 0 initEngine "X"))).total_switches = 1 ∧
    (get_topology_stats (engineOf
      (discover_network envC pickMin 3 0 initEngine "X"))).total_neighbors = 1 := by
  decide

/-- C7 (amended): each run's Candidate starts as exactly the seed and its
Seen set (and visit trace) start empty, and a freshly constructed engine
has empty Discovered and Failed; but Discovered and Failed are engine
instance state that `discover_network` never resets — a run starts from
whatever the engine already holds and only grows it. -/
theorem c7_run_state_scoping
    (env : Env) (pick : Finset String → String) (fuel now : Nat)
    (es : EngineState) (seed : String) :
    (initLoopState (withTimestamp es now) seed).candidate = {seed} ∧
    (initLoopState (withTimestamp es now) seed).seen = ∅ ∧
    (initLoopState (withTimestamp es now) seed).trace = [] ∧
    (initLoopState (withTimestamp es now) seed).discovered = es.discovered ∧
    (initLoopState (withTimestamp es now) seed).failed = es.failed ∧
    initEngine.discovered = ∅ ∧ initEngine.failed = ∅ ∧
    es.discovered ⊆ (discover_network env pick fuel now es seed).discovered ∧
    es.failed ⊆ (discover_network env pick fuel now es seed).failed :=
  ⟨rfl, rfl, rfl, rfl, rfl, rfl, rfl,
    (discover_network_mono env pick fuel now es seed).1,
    (discover_network_mono env pick fuel now es seed).2⟩

/-- C7's second-run clause is false: after a first run discovering X, a
second `discover_network` call on the same engine begins its loop with
Discovered still containing X, and reports X discovered although the
second run never popped it. -/
theorem c7_counterexample :
    (initLoopState (withTimestamp
      (engineOf (discover_network envSolo pickMin 2 0 initEngine "X")) 1) "W").discovered
      = {"X"} ∧
    "X" ∈ (discover_network envSolo pickMin 2 1
      (engineOf (discover_network envSolo pickMin 2 0 initEngine "X")) "W").discovered ∧
    "X" ∉ (discover_network envSolo pickMin 2 1
      (engineOf (discover_network envSolo pickMin 2 0 initEngine "X")) "W").seen := by
  decide

/-- C8: the summary statistics are a pure function of the final state:
the switch total is the number of topology entries, the histogram counts
each stored record under its type tag (absent or empty tags under the
unknown bucket), the neighbor total is the sum of the stored records'
neighbor-list lengths, and the address sets and timestamp are echoed as
recorded. -/
theorem c8_stats_pure_function (es : EngineState) :
    (get_topology_stats es).total_switches = es.topology.switches.length ∧
    (get_topology_stats es).total_neighbors =
      (es.topology.switches.map (fun e => e.2.neighbors.length)).sum ∧
    (∀ k, histCount (get_topology_stats es).switch_types k =
      es.topology.switches.countP (fun e => typeKey e.2 == k)) ∧
    (get_topology_stats es).discovery_timestamp = es.topology.discovery_timestamp ∧
    (get_topology_stats es).discovered_ips = es.discovered ∧
    (get_topology_stats es).failed_ips = es.failed := by
  have hconst := stats_fold_const es.topology.switches
    { total_switches := es.topology.switches.length
      switch_types := []
      total_neighbors := 0
      discovery_timestamp := es.topology.discovery_timestamp
      discovered_ips := es.discovered
      failed_ips := es.failed }
  refine ⟨hconst.1, stats_total_neighbors_eq es, ?_, hconst.2.1, hconst.2.2.1, hconst.2.2.2⟩
  intro k
  unfold get_topology_stats
  rw [stats_fold_types]
  exact Nat.zero_add _

/-- C9 (amended): over a fixed deterministic environment whose strategies
report the probed address as the record's own, any two complete crawls
from the same seed — any valid pop orders, sufficient fuels and
timestamps — yield the same Discovered set, the same Failed set, and the
same total neighbor-edge count. -/
theorem c9_order_independent
    (env : Env) (pick1 pick2 : Finset String → String) (U : Finset String)
    (fuel1 fuel2 now1 now2 : Nat) (seed : String)
    (h1 : ValidPick pick1) (h2 : ValidPick pick2) (hWA : WellAddressed env)
    (hseed : seed ∈ U) (hcl : ClosedUnder env U)
    (hf1 : U.card ≤ fuel1) (hf2 : U.card ≤ fuel2) :
    (discover_network env pick1 fuel1 now1 initEngine seed).discovered =
      (discover_network env pick2 fuel2 now2 initEngine seed).discovered ∧
    (discover_network env pick1 fuel1 now1 initEngine seed).failed =
      (discover_network env pick2 fuel2 now2 initEngine seed).failed ∧
    (get_topology_stats (engineOf
        (discover_network env pick1 fuel1 now1 initEngine seed))).total_neighbors =
      (get_topology_stats (engineOf
        (discover_network env pick2 fuel2 now2 initEngine seed))).total_neighbors := by
  have hd1 := discover_network_drains env pick1 U fuel1 now1 initEngine seed h1 hcl hseed hf1
  have hd2 := discover_network_drains env pick2 U fuel2 now2 initEngine seed h2 hcl hseed hf2
  have hm1 := masterInv_run env pick1 h1 hWA fuel1 now1 seed
  have hm2 := masterInv_run env pick2 h2 hWA fuel2 now2 seed
  have hseen : (discover_network env pick1 fuel1 now1 initEngine seed).seen =
      (discover_network env pick2 fuel2 now2 initEngine seed).seen := by
    apply Finset.ext
    intro x
    rw [seen_eq_reach env pick1 h1 fuel1 now1 initEngine seed hd1 x,
      seen_eq_reach env pick2 h2 fuel2 now2 initEngine seed hd2 x]
  refine ⟨?_, ?_, ?_⟩
  · rw [hm1.disc_eq, hm2.disc_eq, hseen]
  · rw [hm1.fail_eq, hm2.fail_eq, hseen]
  · rw [stats_total_neighbors_eq, stats_total_neighbors_eq]
    simp only [engineOf]
    rw [totalNeighbors_char env _ hm1, totalNeighbors_char env _ hm2, hseen]

/-- Witness for C9: the cycle environment crawled min-first and max-first. -/
theorem c9_order_independent_witness :
    (discover_network envD pickMin 3 0 initEngine "X").discovered =
      (discover_network envD pickMax 3 1 initEngine "X").discovered ∧
    (discover_network envD pickMin 3 0 initEngine "X").failed =
      (discover_network envD pickMax 3 1 initEngine "X").failed ∧
    (get_topology_stats (engineOf
        (discover_network envD pickMin 3 0 initEngine "X"))).total_neighbors =
      (get_topology_stats (engineOf
        (discover_network envD pickMax 3 1 initEngine "X"))).total_neighbors :=
  c9_order_independent envD pickMin pickMax {"X", "Y"} 3 3 0 1 "X"
    validPick_pickMin validPick_pickMax envD_wellAddressed
    (by decide) (by unfold ClosedUnder; decide) (by decide) (by decide)

/-- C9 is false as stated over arbitrary strategy behaviour: in
`envCollide` two records collide on address Z with different neighbor
lists, and the min-order and max-order drains of the same environment
finish with neighbor totals 3 and 2. -/
theorem c9_counterexample :
    (discover_network envCollide pickMin 5 0 initEngine "X").candidate = ∅ ∧
    (discover_network envCollide pickMax 5 0 initEngine "X").candidate = ∅ ∧
    (get_topology_stats (engineOf
        (discover_network envCollide pickMin 5 0 initEngine "X"))).total_neighbors = 3 ∧
    (get_topology_stats (engineOf
        (discover_network envCollide pickMax 5 0 initEngine "X"))).total_neighbors = 2 := by
  decide

/-- C10: when no input line strips to something starting with
`Interface`, `parse_vlan_ports_table` raises `AnsibleFilterError` rather
than returning a membership mapping — in particular for inputs shaped
like the example in its own docstring, whose header line starts with
`VLAN ID`. -/
theorem c10_missing_header_raises (lines : List String)
    (h : ∀ l ∈ lines, pyStartsWith (pyStrip l) "Interface" = false) :
    parse_vlan_ports_table lines = .error "Could not find port header in output" := by
  unfold parse_vlan_ports_table
  rw [findPortLine_eq_none lines h]

/-- Witness for C10: the docstring-shaped port table, whose header line
starts with `VLAN ID` instead of `Interface`. -/
theorem c10_missing_header_raises_witness :
    parse_vlan_ports_table
      ["        VLAN Port membership", "            Slot: 1",
        "VLAN ID  Port: 1234567890123456789012345678",
        "-------  ----- ----------------------------",
        "        1        UUUUUUUUUUUUUUUUUUUUUUUUUUUU",
        "        2        -T-T-----------------------T"]
      = .error "Could not find port header in output" :=
  c10_missing_header_raises
    ["        VLAN Port membership", "            Slot: 1",
      "VLAN ID  Port: 1234567890123456789012345678",
      "-------  ----- ----------------------------",
      "        1        UUUUUUUUUUUUUUUUUUUUUUUUUUUU",
      "        2        -T-T-----------------------T"]
    (by decide)

end OnboardSwitches
